import Mathlib

/-!
Shallow embedding of the approval-workflow / similarity / pricing engine of
the `canyonai` repository (source of truth: `src/server/api/routers/quote.ts`,
with the seed-data chain builder from `prisma/seed.ts`).

Modelling conventions:
* Database `Decimal` / JS `number` values are embedded as `ℚ`.
* Timestamps (`Date`) are embedded as `Int` milliseconds since the epoch.
* A workflow's step list is kept in `stepOrder` order (every read in the
  source orders by `stepOrder asc`), so list position is the step order.
* Stateful routines running inside a database transaction are embedded as
  pure functions from the pre-state to the post-state; a thrown error is an
  explicit error value, in which case the state is returned unchanged
  (the surrounding transaction rolls back).
-/

namespace Canyon

/-- Approval personas (`Role` enum in the Prisma schema). -/
inductive Role
  | AE | DEALDESK | CRO | FINANCE | LEGAL
deriving DecidableEq, Repr

/-- Payment kinds (`PaymentKind` enum). -/
inductive PaymentKind
  | NET | PREPAY | BOTH
deriving DecidableEq, Repr

/-- Step statuses (`ApprovalStatus` enum). -/
inductive ApprovalStatus
  | Waiting | Pending | Approved | Rejected
deriving DecidableEq, Repr

/-- Quote statuses (`QuoteStatus` enum). -/
inductive QuoteStatus
  | Pending | Approved | Rejected | Sold
deriving DecidableEq, Repr

/-- One approval step (`ApprovalStep` row). `updatedAt` is the gating
timestamp; `approvedAt` is set when a step is approved. -/
structure Step where
  stepOrder : Nat
  persona : Role
  status : ApprovalStatus
  approverId : Option String := none
  approvedAt : Option Int := none
  updatedAt : Option Int := none
deriving DecidableEq, Repr

/-- `updateQuoteStatus` (quote.ts lines 7-36): derive the quote status from
the stored status and the workflow's steps. `wf = none` models a quote with
no `approvalWorkflow` row; the source then takes `workflow?.steps ?? []`. -/
def updateQuoteStatus (stored : QuoteStatus) (wf : Option (List Step)) : QuoteStatus :=
  if stored = QuoteStatus.Sold then QuoteStatus.Sold
  else
    let steps := wf.getD []
    if steps.isEmpty then QuoteStatus.Approved
    else if steps.any (fun s => s.status = ApprovalStatus.Rejected) then QuoteStatus.Rejected
    else if steps.any (fun s => s.status = ApprovalStatus.Pending) then QuoteStatus.Pending
    else QuoteStatus.Approved

/-- The update applied by `recomputeWorkflowGating` to the first
not-`Approved` step (desired status `Pending`): if the status differs, set
it to `Pending` and stamp `updatedAt := now`; otherwise stamp `updatedAt`
only when it is unset. -/
def markPending (now : Int) (s : Step) : Step :=
  if s.status ≠ ApprovalStatus.Pending then
    { s with status := ApprovalStatus.Pending, updatedAt := some now }
  else if s.updatedAt = none then { s with updatedAt := some now }
  else s

/-- The update applied by `recomputeWorkflowGating` to every later
not-`Approved` step (desired status `Waiting`): `Approved` steps are skipped
by the loop; otherwise, if the status differs, set it to `Waiting` and clear
`updatedAt`. -/
def markWaiting (s : Step) : Step :=
  if s.status = ApprovalStatus.Approved then s
  else if s.status ≠ ApprovalStatus.Waiting then
    { s with status := ApprovalStatus.Waiting, updatedAt := none }
  else s

/-- The gating loop of `recomputeWorkflowGating` (quote.ts lines 50-66):
skip the `Approved` preamble, mark the first not-`Approved` step `Pending`,
and mark every later step `Waiting` (skipping `Approved` ones). When every
step is `Approved` (`firstNonApprovedIndex === -1`) this is the identity. -/
def gateSteps (now : Int) : List Step → List Step
  | [] => []
  | s :: rest =>
    if s.status = ApprovalStatus.Approved then s :: gateSteps now rest
    else markPending now s :: rest.map markWaiting

/-- `recomputeWorkflowGating` on a step list: a no-op when any step is
`Rejected` (frozen workflow), else the gating loop. The `steps.length === 0`
early return of the source coincides with `gateSteps now [] = []`. -/
def gateList (now : Int) (steps : List Step) : List Step :=
  if steps.any (fun s => s.status = ApprovalStatus.Rejected) then steps
  else gateSteps now steps

/-- `recomputeWorkflowGating` (quote.ts lines 38-67): returns early when the
workflow row does not exist. -/
def recomputeWorkflowGating (now : Int) (wf : Option (List Step)) : Option (List Step) :=
  wf.map (gateList now)

/-- The two throw sites of `approveNextForRole` that the spec maps to
`NotFoundError`, and the persona-mismatch throw site. -/
inductive ApproveError
  | workflowNotFound
  | noPendingStep
  | roleMismatch
deriving DecidableEq, Repr

/-- Outcome of `approveNextForRole`: the (possibly unchanged) workflow and
stored quote status after the transaction, plus the error if one was thrown
(in which case the transaction rolled back and the state is unchanged). -/
structure ApproveOutcome where
  error : Option ApproveError
  wf : Option (List Step)
  quoteStatus : QuoteStatus
deriving DecidableEq, Repr

/-- The single step update of `approveNextForRole`: the step found by
`steps.find(s => s.status === Pending)` (steps in `stepOrder` order) is set
to `Approved` with `approvedAt = now`. The update is by primary key; in the
list model this is the first `Pending` element. -/
def approveFirstPending (now : Int) : List Step → List Step
  | [] => []
  | s :: rest =>
    if s.status = ApprovalStatus.Pending then
      { s with status := ApprovalStatus.Approved, approvedAt := some now } :: rest
    else s :: approveFirstPending now rest

/-- `approveNextForRole` (quote.ts lines 222-251): approve the next pending
step for a quote as a given role, then re-gate and recompute the quote
status, all in one transaction. -/
def approveNextForRole (now : Int) (role : Role) (wf : Option (List Step))
    (stored : QuoteStatus) : ApproveOutcome :=
  match wf with
  | none => ⟨some ApproveError.workflowNotFound, wf, stored⟩
  | some steps =>
    match steps.find? (fun s => s.status = ApprovalStatus.Pending) with
    | none => ⟨some ApproveError.noPendingStep, wf, stored⟩
    | some nextPending =>
      if nextPending.persona ≠ role then ⟨some ApproveError.roleMismatch, wf, stored⟩
      else
        let steps2 := gateList now (approveFirstPending now steps)
        ⟨none, some steps2, updateQuoteStatus stored (some steps2)⟩

/-- One element of the `steps` input of the `setWorkflow` mutation. -/
structure StepInput where
  persona : Role
  approverEmail : Option String := none
  status : Option ApprovalStatus := none
deriving DecidableEq, Repr

/-- The step row created by `setWorkflow` for the i-th input (0-based):
`stepOrder = i + 1`, status defaulting to `Waiting`, `updatedAt` stamped
only when the provided status is `Pending`; the approver is resolved by
email against the user table (a list of email/id pairs here). -/
def buildStep (now : Int) (users : List (String × String)) (i : Nat) (inp : StepInput) : Step :=
  { stepOrder := i + 1
    persona := inp.persona
    approverId := inp.approverEmail.bind fun e =>
      (users.find? (fun u => u.1 = e)).map (fun u => u.2)
    status := inp.status.getD ApprovalStatus.Waiting
    approvedAt := none
    updatedAt := if inp.status = some ApprovalStatus.Pending then some now else none }

/-- `setWorkflow` (quote.ts lines 256-309): inside one transaction, delete
every existing step of the quote's workflow (creating the workflow row if
absent), insert one row per input, re-gate, and recompute the quote status.
The source reads the existing workflow only for its id: the old step list
`oldWf` is never consulted, and the mutation has no failure path. -/
def setWorkflow (now : Int) (users : List (String × String)) (oldWf : Option (List Step))
    (stored : QuoteStatus) (inputs : List StepInput) : Option (List Step) × QuoteStatus :=
  let fresh := inputs.mapIdx (buildStep now users)
  let gated := gateList now fresh
  (some gated, updateQuoteStatus stored (some gated))

/-- The workflow-initialization transaction of `createQuote` (quote.ts lines
632-665): step 1 is persona `AE`, created directly `Approved` with
`approvedAt = now` and the creator as approver; each remaining chain persona
becomes a `Waiting` step with `stepOrder` 2, 3, …; then gating runs. -/
def initWorkflow (now : Int) (creatorId : String) (chain : List Role) : List Step :=
  let first : Step :=
    { stepOrder := 1, persona := Role.AE, status := ApprovalStatus.Approved
      approverId := some creatorId, approvedAt := some now, updatedAt := none }
  let rest := (chain.drop 1).mapIdx fun i persona =>
    { stepOrder := i + 2, persona := persona, status := ApprovalStatus.Waiting
      approverId := none, approvedAt := none, updatedAt := none : Step }
  gateList now (first :: rest)

/-- Bespoke payment terms as written in both chain builders:
`paymentKind === BOTH`, or `paymentKind === NET && (netDays ?? 0) >= 60`. -/
def isBespoke (pk : PaymentKind) (netDays : Option Int) : Prop :=
  pk = PaymentKind.BOTH ∨ (pk = PaymentKind.NET ∧ 60 ≤ netDays.getD 0)

instance (pk : PaymentKind) (netDays : Option Int) : Decidable (isBespoke pk netDays) := by
  unfold isBespoke; infer_instance

/-- `buildApprovalChain` as defined inside `createQuote` (quote.ts lines
614-629): a single if/else-if ladder, so the bespoke condition is reached
only when neither discount tier fired. -/
def buildApprovalChain (discountPercent : ℚ) (paymentKind : PaymentKind)
    (netDays : Option Int) : List Role :=
  let tier : List Role :=
    if 0 < discountPercent ∧ discountPercent ≤ 15 then [Role.DEALDESK]
    else if 15 < discountPercent ∧ discountPercent ≤ 40 then [Role.CRO]
    else if 40 < discountPercent ∨ paymentKind = PaymentKind.BOTH ∨
        (paymentKind = PaymentKind.NET ∧ 60 ≤ netDays.getD 0) then [Role.FINANCE]
    else []
  [Role.AE] ++ tier ++ [Role.LEGAL]

/-- `buildApprovalChain` from `prisma/seed.ts` (lines 100-116): the discount
tier pushes `CRO, FINANCE` above 40, and bespoke deals get `FINANCE`
appended independently when not already present. -/
def buildApprovalChainSeed (discountPercent : ℚ) (paymentKind : PaymentKind)
    (netDays : Option Int) : List Role :=
  let tier : List Role :=
    if 0 < discountPercent ∧ discountPercent ≤ 15 then [Role.DEALDESK]
    else if 15 < discountPercent ∧ discountPercent ≤ 40 then [Role.CRO]
    else if 40 < discountPercent then [Role.CRO, Role.FINANCE]
    else []
  let roles := [Role.AE] ++ tier
  let roles :=
    if isBespoke paymentKind netDays ∧ ¬ Role.FINANCE ∈ roles then roles ++ [Role.FINANCE]
    else roles
  roles ++ [Role.LEGAL]

/-- `toCurrency` (quote.ts line 529): `Number(n.toFixed(2))`, i.e. rounding
to 2 decimal places, ties away from zero; the values it is applied to are
non-negative, where this is rounding half up. -/
def toCurrency (n : ℚ) : ℚ := (Int.floor (n * 100 + 1 / 2) : ℚ) / 100

/-- The pricing computation of `createQuote` (quote.ts lines 523-529):
`subtotal = unitPrice * seats + Σ addOnPrices`,
`total = subtotal * (1 - discount / 100)`, each run through `toCurrency`
only at the end (`total` is computed from the unrounded subtotal). -/
def computePricing (unitPrice : ℚ) (seats : Int) (addOnPrices : List ℚ)
    (discountPercent : ℚ) : ℚ × ℚ :=
  let subtotalNum := unitPrice * (seats : ℚ) + addOnPrices.sum
  let totalNum := subtotalNum * (1 - discountPercent / 100)
  (toCurrency subtotalNum, toCurrency totalNum)

/-- The two `validation_error` return sites of `createQuote` (quote.ts lines
512-521). The `PREPAY` branch of the source is empty. -/
inductive CreateError
  | netDaysRequired
  | netDaysAndPrepayRequired
deriving DecidableEq, Repr

/-- Payment-term validation of `createQuote` (quote.ts lines 512-521):
`NET` requires `netDays`; `PREPAY` requires nothing; `BOTH` requires both
`netDays` and `prepayPercent`. -/
def validatePaymentTerms (pk : PaymentKind) (netDays : Option Int)
    (prepayPercent : Option ℚ) : Option CreateError :=
  match pk with
  | PaymentKind.NET =>
    if netDays = none then some CreateError.netDaysRequired else none
  | PaymentKind.PREPAY => none
  | PaymentKind.BOTH =>
    if netDays = none ∨ prepayPercent = none then some CreateError.netDaysAndPrepayRequired
    else none

/-- The payment fields persisted on the quote row. -/
structure PaymentRecord where
  paymentKind : PaymentKind
  netDays : Option Int
  prepayPercent : Option ℚ
deriving DecidableEq, Repr

/-- The payment-term part of `createQuote` (validation at lines 512-521 and
the persisted `netDays` / `prepayPercent` expressions at lines 539-543):
`netDays` is stored unless the kind is `PREPAY`; `prepayPercent` is stored
unless the kind is `NET`, defaulting to `100` when absent. -/
def createQuotePayment (pk : PaymentKind) (netDays : Option Int)
    (prepayPercent : Option ℚ) : Except CreateError PaymentRecord :=
  match validatePaymentTerms pk netDays prepayPercent with
  | some e => Except.error e
  | none =>
    Except.ok
      { paymentKind := pk
        netDays := if pk ≠ PaymentKind.PREPAY then netDays else none
        prepayPercent :=
          if pk ≠ PaymentKind.NET then some (prepayPercent.getD 100) else none }

/-- The database writes performed by a successful `createQuote` run, named
after their call sites. -/
inductive DbAction
  | insertQuote
  | setDocumentHtml
  | insertWorkflow
  | deleteOldSteps
  | insertStep (stepOrder : Nat) (persona : Role)
  | gateUpdates
  | writeQuoteStatus
deriving DecidableEq, Repr

/-- The write trace of `createQuote` (quote.ts lines 531-665) grouped into
its atomic units, in source order. `ctx.db.quote.create` (line 531) and
`ctx.db.quote.update` for the contract document (line 612) are single
standalone statements; only the workflow initialization (lines 632-665) runs
inside `ctx.db.$transaction`. The best-effort contract generation happens
between the first and second unit. An interrupted execution commits a prefix
of these units. -/
def createQuoteUnits (chain : List Role) : List (List DbAction) :=
  [ [DbAction.insertQuote],
    [DbAction.setDocumentHtml],
    [DbAction.insertWorkflow, DbAction.deleteOldSteps, DbAction.insertStep 1 Role.AE] ++
      ((chain.drop 1).mapIdx fun i persona => DbAction.insertStep (i + 2) persona) ++
      [DbAction.gateUpdates, DbAction.writeQuoteStatus] ]

/-- The writes committed after the first `k` atomic units of `createQuote`
have completed. -/
def committedAfter (chain : List Role) (k : Nat) : List DbAction :=
  ((createQuoteUnits chain).take k).flatten

/-- The quote row exists in the committed state. -/
def quotePersisted (acts : List DbAction) : Prop := DbAction.insertQuote ∈ acts

/-- The workflow row (and hence its initialization transaction) committed. -/
def workflowInitialized (acts : List DbAction) : Prop := DbAction.insertWorkflow ∈ acts

/-- JS `hay.includes(needle)` over the underlying character lists. -/
def strContains (hay needle : String) : Bool :=
  decide (List.IsInfix needle.toList hay.toList)

/-- JS `Math.round`: round half toward positive infinity. -/
def jsRound (x : ℚ) : Int := Int.floor (x + 1 / 2)

/-- An add-on row (id and name are all the scorer reads). -/
structure AddOn where
  id : String
  name : String
deriving DecidableEq, Repr

/-- The quote fields read by `findSimilarQuotes` (candidate rows are fetched
with their package and add-ons included). -/
structure Quote where
  id : String
  packageId : String
  packageName : String
  customerName : String
  quantity : Int
  discountPercent : ℚ
  addOns : List AddOn
  paymentKind : PaymentKind
  netDays : Option Int
  prepayPercent : Option ℚ
  subtotal : ℚ
  total : ℚ
  status : QuoteStatus
  createdAt : Int
deriving DecidableEq, Repr

/-- The input of `findSimilarQuotes` (quote.ts lines 317-329). The zod
defaults for the add-on lists are the empty list. -/
structure SimilarQuery where
  packageId : Option String := none
  productName : Option String := none
  seats : Option Int := none
  discountPercent : Option ℚ := none
  addOnIds : List String := []
  addOnNames : List String := []
  paymentKind : Option PaymentKind := none
deriving DecidableEq, Repr

/-- A candidate together with its score and matched-rule labels. -/
structure ScoredQuote where
  q : Quote
  score : Int
  reasons : List String
deriving DecidableEq, Repr

/-- The per-candidate scoring closure of `findSimilarQuotes` (quote.ts lines
354-423), translated rule for rule in source order. -/
def scoreQuote (nowMs : Int) (p : SimilarQuery) (q : Quote) : ScoredQuote :=
  let normalizedProduct := ((p.productName.getD "").trim).toLower
  let normalizedAddOnNames := p.addOnNames.map fun n => (n.trim).toLower
  let acc0 : Int × List String := (0, [])
  let acc1 :=
    match p.packageId with
    | some pid =>
      if q.packageId = pid then (acc0.1 + 4, acc0.2 ++ ["same packageId"])
      else if normalizedProduct ≠ "" then
        let name := q.packageName.toLower
        if name = normalizedProduct then (acc0.1 + 3, acc0.2 ++ ["exact product name match"])
        else if strContains name normalizedProduct then
          (acc0.1 + 2, acc0.2 ++ ["product name contains"])
        else acc0
      else acc0
    | none =>
      if normalizedProduct ≠ "" then
        let name := q.packageName.toLower
        if name = normalizedProduct then (acc0.1 + 3, acc0.2 ++ ["exact product name match"])
        else if strContains name normalizedProduct then
          (acc0.1 + 2, acc0.2 ++ ["product name contains"])
        else acc0
      else acc0
  let acc2 :=
    match p.seats with
    | some seats =>
      let diff := (q.quantity - seats).natAbs
      if diff = 0 then (acc1.1 + 3, acc1.2 ++ ["exact seat count"])
      else if diff ≤ 10 then (acc1.1 + 2, acc1.2 ++ ["close seat count"])
      else if diff ≤ 20 then (acc1.1 + 1, acc1.2 ++ ["within seat band"])
      else acc1
    | none => acc1
  let acc3 :=
    match p.discountPercent with
    | some provided =>
      let diff := |q.discountPercent - provided|
      let allowed : Int := max 1 (jsRound (provided * (1 / 10)))
      if diff = 0 then (acc2.1 + 2, acc2.2 ++ ["exact discount"])
      else if diff ≤ (allowed : ℚ) then (acc2.1 + 1, acc2.2 ++ ["discount in range"])
      else acc2
    | none => acc2
  let acc4 :=
    if p.addOnIds ≠ [] ∨ normalizedAddOnNames ≠ [] then
      let overlap : Nat := q.addOns.countP fun ao =>
        p.addOnIds.contains ao.id ||
          normalizedAddOnNames.any fun n => strContains (ao.name.toLower) n
      if 0 < overlap then
        (acc3.1 + min 3 (overlap : Int), acc3.2 ++ [toString overlap ++ " add-on overlap"])
      else acc3
    else acc3
  let acc5 :=
    match p.paymentKind with
    | some pk => if q.paymentKind = pk then (acc4.1 + 1, acc4.2 ++ ["same payment kind"]) else acc4
    | none => acc4
  let acc6 :=
    if ((nowMs - q.createdAt : ℚ)) / (1000 * 60 * 60 * 24) ≤ 90 then
      (acc5.1 + 1, acc5.2 ++ ["recent"])
    else acc5
  ⟨q, acc6.1, acc6.2⟩

/-- The candidate `where` clause of `findSimilarQuotes` (quote.ts lines
334-338): created within the trailing 365 days and status `Approved` or
`Sold`. -/
def candidateFilter (nowMs : Int) (q : Quote) : Bool :=
  (nowMs - 365 * 24 * 60 * 60 * 1000 ≤ q.createdAt) &&
    (q.status = QuoteStatus.Approved || q.status = QuoteStatus.Sold)

/-- Most-recent-first order used by the candidate fetch
(`orderBy: createdAt desc`). -/
def recencyRel (a b : Quote) : Prop := b.createdAt ≤ a.createdAt

instance : DecidableRel recencyRel := fun a b => by unfold recencyRel; infer_instance

instance : IsTotal Quote recencyRel :=
  ⟨fun a b => (le_total b.createdAt a.createdAt).imp (fun h => h) (fun h => h)⟩

instance : IsTrans Quote recencyRel :=
  ⟨fun _ _ _ h h' => le_trans h' h⟩

/-- The candidate set of `findSimilarQuotes`: the filtered quotes,
most-recent-first, capped at 200 (`take: 200`). A stable sort models the
store's ordered fetch. -/
def simCandidates (nowMs : Int) (allQuotes : List Quote) : List Quote :=
  ((allQuotes.filter (candidateFilter nowMs)).insertionSort recencyRel).take 200

/-- The ranking comparator (quote.ts line 427), as the total preorder
"sorts no later than": higher score first, ties by `createdAt` descending.
JS `Array.prototype.sort` is stable, as is the stable sort used here. -/
def rankRel (a b : ScoredQuote) : Prop :=
  b.score < a.score ∨ (a.score = b.score ∧ b.q.createdAt ≤ a.q.createdAt)

instance : DecidableRel rankRel := fun a b => by unfold rankRel; infer_instance

instance : IsTotal ScoredQuote rankRel := by
  constructor
  intro a b
  unfold rankRel
  rcases lt_trichotomy a.score b.score with h | h | h
  · exact Or.inr (Or.inl h)
  · rcases le_total b.q.createdAt a.q.createdAt with h' | h'
    · exact Or.inl (Or.inr ⟨h, h'⟩)
    · exact Or.inr (Or.inr ⟨h.symm, h'⟩)
  · exact Or.inl (Or.inl h)

instance : IsTrans ScoredQuote rankRel := by
  constructor
  intro a b c hab hbc
  unfold rankRel at *
  rcases hab with h1 | ⟨h1, h1'⟩ <;> rcases hbc with h2 | ⟨h2, h2'⟩
  · exact Or.inl (lt_trans h2 h1)
  · exact Or.inl (h2 ▸ h1)
  · exact Or.inl (h1 ▸ h2)
  · exact Or.inr ⟨h1.trans h2, le_trans h2' h1'⟩

/-- One element of the `results` list returned by `findSimilarQuotes`
(quote.ts lines 429-444). -/
structure SimilarResult where
  quoteId : String
  createdAt : Int
  status : QuoteStatus
  customerName : String
  packageId : String
  packageName : String
  quantity : Int
  discountPercent : ℚ
  addOns : List AddOn
  paymentKind : PaymentKind
  netDays : Option Int
  prepayPercent : Option ℚ
  subtotal : ℚ
  total : ℚ
  score : Int
  reasons : List String
deriving DecidableEq, Repr

/-- The final projection of a scored candidate into a result row. -/
def toResult (s : ScoredQuote) : SimilarResult :=
  { quoteId := s.q.id, createdAt := s.q.createdAt, status := s.q.status
    customerName := s.q.customerName, packageId := s.q.packageId
    packageName := s.q.packageName, quantity := s.q.quantity
    discountPercent := s.q.discountPercent, addOns := s.q.addOns
    paymentKind := s.q.paymentKind, netDays := s.q.netDays
    prepayPercent := s.q.prepayPercent, subtotal := s.q.subtotal
    total := s.q.total, score := s.score, reasons := s.reasons }

/-- `findSimilarQuotes` (quote.ts lines 316-447) over the full quote table:
fetch and cap the candidate set, score each candidate, drop zero scores,
sort by score descending with ties most-recent-first, return the top 10. -/
def findSimilarQuotes (nowMs : Int) (allQuotes : List Quote)
    (p : SimilarQuery) : List SimilarResult :=
  let scored := (simCandidates nowMs allQuotes).map (scoreQuote nowMs p)
  let ranked := ((scored.filter fun s => 0 < s.score).insertionSort rankRel).take 10
  ranked.map toResult

/-! ### Concrete fixtures and auxiliary predicates used by the theorems below -/

/-- A rejected LEGAL step and a waiting DEALDESK step, used as concrete
inputs by witnesses. -/
def exStepRejected : Step :=
  { stepOrder := 2, persona := Role.LEGAL, status := ApprovalStatus.Rejected
    approverId := none, approvedAt := some 3, updatedAt := some 3 }

def exStepWaiting : Step :=
  { stepOrder := 3, persona := Role.DEALDESK, status := ApprovalStatus.Waiting
    approverId := none, approvedAt := none, updatedAt := none }

/-- The approved AE step and pending DEALDESK step of the spec's Scenario D. -/
def exStepApprovedAE : Step :=
  { stepOrder := 1, persona := Role.AE, status := ApprovalStatus.Approved
    approverId := some "u1", approvedAt := some 0, updatedAt := none }

def exStepPendingDD : Step :=
  { stepOrder := 2, persona := Role.DEALDESK, status := ApprovalStatus.Pending
    approverId := none, approvedAt := none, updatedAt := some 0 }

/-- A concrete persisted payment record used by the C10 witness. -/
def exPrepayRec : PaymentRecord :=
  { paymentKind := PaymentKind.PREPAY, netDays := none, prepayPercent := some 25 }

instance (acts : List DbAction) : Decidable (quotePersisted acts) := by
  unfold quotePersisted; infer_instance

instance (acts : List DbAction) : Decidable (workflowInitialized acts) := by
  unfold workflowInitialized; infer_instance

/-- Modelled from the spec (§4.3 `ReplaceSteps`), for comparison with the
implementation: the index bound `last old Approved index + 1`. -/
def lastApprovedBound (old : List Step) : Nat :=
  (old.enum.filterMap fun p =>
    if p.2.status = ApprovalStatus.Approved then some (p.1 + 1) else none).foldl max 0

/-- Modelled from the spec (§4.3 `ReplaceSteps` constraint): an edit whose
new list fails to reproduce, position by position up to the old
last-approved index, the old personas with `Approved` status — i.e. it
deletes, reorders-before, or demotes an already-approved step. The spec
says such an edit must fail with `InvalidEditError`. -/
def specEditViolation (old : List Step) (new : List StepInput) : Bool :=
  let m := lastApprovedBound old
  ! (decide (m ≤ new.length) && (List.range m).all fun i =>
      match old[i]?, new[i]? with
      | some o, some n =>
        n.persona = o.persona && n.status = some ApprovalStatus.Approved
      | _, _ => false)

/-- An already-approved single-step workflow and an edit that demotes its
approved step back to `Waiting`. -/
def exApprovedOnly : List Step :=
  [{ stepOrder := 1, persona := Role.AE, status := ApprovalStatus.Approved,
     approverId := none, approvedAt := some 0, updatedAt := none }]

def exDemoteInput : List StepInput :=
  [{ persona := Role.AE, approverEmail := none, status := some ApprovalStatus.Waiting }]

/-- The spec's gating invariant on a step list: at most one `Pending` step,
and none at all when some step is `Rejected`. -/
def wfInvariant (l : List Step) : Prop :=
  l.countP (fun s => s.status = ApprovalStatus.Pending) ≤ 1 ∧
  ((l.any fun s => s.status = ApprovalStatus.Rejected) = true →
    l.countP (fun s => s.status = ApprovalStatus.Pending) = 0)

instance (l : List Step) : Decidable (wfInvariant l) := by
  unfold wfInvariant; infer_instance

/-- The step rows persisted by the C3 counterexample call. -/
def exRejPendingInputs : List StepInput :=
  [{ persona := Role.AE, approverEmail := none, status := some ApprovalStatus.Rejected },
   { persona := Role.LEGAL, approverEmail := none, status := some ApprovalStatus.Pending }]

def exRejPendingSteps : List Step :=
  [{ stepOrder := 1, persona := Role.AE, status := ApprovalStatus.Rejected,
     approverId := none, approvedAt := none, updatedAt := none },
   { stepOrder := 2, persona := Role.LEGAL, status := ApprovalStatus.Pending,
     approverId := none, approvedAt := none, updatedAt := some 0 }]

/-- A concrete store and query for the C7 witness: one `Approved` quote
created a day before the query, matched by package id. -/
def exNow : Int := 100 * 86400000

def exCand : Quote :=
  { id := "q1", packageId := "p1", packageName := "zoom pro",
    customerName := "acme", quantity := 50, discountPercent := 10,
    addOns := [], paymentKind := PaymentKind.NET, netDays := some 30,
    prepayPercent := none, subtotal := 1000, total := 900,
    status := QuoteStatus.Approved, createdAt := 99 * 86400000 }

def exQuery : SimilarQuery := { packageId := some "p1" }

def exScored : ScoredQuote := ⟨exCand, 5, ["same packageId", "recent"]⟩

/-! ### Helper lemmas about the gating loop -/

theorem markPending_status (now : Int) (s : Step) :
    (markPending now s).status = ApprovalStatus.Pending := by
  unfold markPending
  split_ifs with h1 h2
  · rfl
  · simpa using h1
  · simpa using h1

theorem markPending_updatedAt_ne (now : Int) (s : Step) :
    (markPending now s).updatedAt ≠ none := by
  unfold markPending
  split_ifs with h1 h2
  · simp
  · simp
  · exact h2

theorem markPending_eq_self (now : Int) (t : Step)
    (h1 : t.status = ApprovalStatus.Pending) (h2 : t.updatedAt ≠ none) :
    markPending now t = t := by
  unfold markPending
  rw [if_neg (by simp [h1]), if_neg h2]

theorem markPending_fix (now now' : Int) (s : Step) :
    markPending now' (markPending now s) = markPending now s :=
  markPending_eq_self now' _ (markPending_status now s) (markPending_updatedAt_ne now s)

theorem markWaiting_status (s : Step) :
    (markWaiting s).status = ApprovalStatus.Waiting ∨
      (markWaiting s).status = ApprovalStatus.Approved := by
  unfold markWaiting
  split_ifs with h1 h2
  · exact Or.inr h1
  · exact Or.inl rfl
  · exact Or.inl (by simpa using h2)

theorem markWaiting_eq_self (t : Step)
    (h : t.status = ApprovalStatus.Waiting ∨ t.status = ApprovalStatus.Approved) :
    markWaiting t = t := by
  unfold markWaiting
  rcases h with h | h
  · rw [if_neg (by simp [h]), if_neg (by simp [h])]
  · rw [if_pos h]

theorem markWaiting_fix (s : Step) : markWaiting (markWaiting s) = markWaiting s :=
  markWaiting_eq_self _ (markWaiting_status s)

theorem gateSteps_idem (now now' : Int) (l : List Step) :
    gateSteps now' (gateSteps now l) = gateSteps now l := by
  induction l with
  | nil => rfl
  | cons s rest ih =>
    by_cases h : s.status = ApprovalStatus.Approved
    · rw [gateSteps, if_pos h, gateSteps, if_pos h, ih]
    · rw [gateSteps, if_neg h, gateSteps,
        if_neg (by rw [markPending_status]; nofun),
        markPending_fix, List.map_map,
        show markWaiting ∘ markWaiting = markWaiting from funext markWaiting_fix]

theorem gateSteps_not_rejected (now : Int) (l : List Step) :
    ∀ s ∈ gateSteps now l, s.status ≠ ApprovalStatus.Rejected := by
  induction l with
  | nil => nofun
  | cons s rest ih =>
    intro t ht
    by_cases h : s.status = ApprovalStatus.Approved
    · rw [gateSteps, if_pos h] at ht
      rcases List.mem_cons.mp ht with rfl | ht
      · rw [h]; nofun
      · exact ih t ht
    · rw [gateSteps, if_neg h] at ht
      rcases List.mem_cons.mp ht with rfl | ht
      · rw [markPending_status]; nofun
      · obtain ⟨x, _, rfl⟩ := List.mem_map.mp ht
        rcases markWaiting_status x with hw | hw <;> rw [hw] <;> nofun

theorem gateSteps_any_rejected_eq_false (now : Int) (l : List Step) :
    ((gateSteps now l).any fun s => s.status = ApprovalStatus.Rejected) = false := by
  rw [Bool.eq_false_iff]
  intro hc
  rw [List.any_eq_true] at hc
  obtain ⟨s, hs, hps⟩ := hc
  exact gateSteps_not_rejected now l s hs (of_decide_eq_true hps)

theorem gateList_idem (now now' : Int) (steps : List Step) :
    gateList now' (gateList now steps) = gateList now steps := by
  unfold gateList
  by_cases h : (steps.any fun s => s.status = ApprovalStatus.Rejected) = true
  · rw [if_pos h, if_pos h]
  · rw [if_neg h, if_neg (by rw [gateSteps_any_rejected_eq_false]; nofun),
      gateSteps_idem]

/-- C9. `Gate` (`recomputeWorkflowGating`) is idempotent: a second run, at
any later time, changes no step status and no gating timestamp (`updatedAt`)
— in fact it reproduces the step list exactly. -/
theorem gate_idempotent (now now' : Int) (wf : Option (List Step)) :
    recomputeWorkflowGating now' (recomputeWorkflowGating now wf) =
      recomputeWorkflowGating now wf := by
  cases wf with
  | none => rfl
  | some steps =>
    show some (gateList now' (gateList now steps)) = some (gateList now steps)
    rw [gateList_idem]

/-! ### Quote-status derivation -/

theorem updateQuoteStatus_stored_irrel (stored stored' : QuoteStatus)
    (wf : Option (List Step)) (h : stored ≠ QuoteStatus.Sold)
    (h' : stored' ≠ QuoteStatus.Sold) :
    updateQuoteStatus stored wf = updateQuoteStatus stored' wf := by
  unfold updateQuoteStatus
  rw [if_neg h, if_neg h']

theorem updateQuoteStatus_ne_sold (stored : QuoteStatus) (wf : Option (List Step))
    (h : stored ≠ QuoteStatus.Sold) : updateQuoteStatus stored wf ≠ QuoteStatus.Sold := by
  unfold updateQuoteStatus
  rw [if_neg h]
  dsimp only
  split_ifs <;> nofun

theorem list_any_perm {l l' : List Step} (hp : l.Perm l') (f : Step → Bool) :
    l.any f = l'.any f := by
  by_cases h : l.any f = true
  · rw [h]
    symm
    rw [List.any_eq_true] at h ⊢
    obtain ⟨x, hx, hfx⟩ := h
    exact ⟨x, hp.subset hx, hfx⟩
  · have h' : ¬ l'.any f = true := by
      intro hc
      rw [List.any_eq_true] at hc
      obtain ⟨x, hx, hfx⟩ := hc
      exact h (List.any_eq_true.mpr ⟨x, hp.symm.subset hx, hfx⟩)
    rw [Bool.not_eq_true] at h h'
    rw [h, h']

/-- C4. `updateQuoteStatus` is a pure function of the step-status multiset
and the Sold override: a stored `Sold` is returned unchanged; otherwise the
result is `Rejected` when some step is `Rejected`, else `Pending` when some
step is `Pending`, else `Approved` (in particular for an absent workflow or
an empty step list); it is invariant under permutation of the steps, and
running it twice without a mutation in between yields the same result. -/
theorem updateQuoteStatus_spec :
    (∀ wf, updateQuoteStatus QuoteStatus.Sold wf = QuoteStatus.Sold)
    ∧ (∀ stored wf, stored ≠ QuoteStatus.Sold →
        updateQuoteStatus stored wf =
          (if (wf.getD []).any (fun s => s.status = ApprovalStatus.Rejected) then
            QuoteStatus.Rejected
          else if (wf.getD []).any (fun s => s.status = ApprovalStatus.Pending) then
            QuoteStatus.Pending
          else QuoteStatus.Approved))
    ∧ (∀ stored wf,
        updateQuoteStatus (updateQuoteStatus stored wf) wf = updateQuoteStatus stored wf)
    ∧ (∀ stored (l l' : List Step), l.Perm l' →
        updateQuoteStatus stored (some l) = updateQuoteStatus stored (some l')) := by
  have hsold : ∀ wf, updateQuoteStatus QuoteStatus.Sold wf = QuoteStatus.Sold := by
    intro wf
    unfold updateQuoteStatus
    rw [if_pos rfl]
  refine ⟨hsold, ?_, ?_, ?_⟩
  · intro stored wf h
    unfold updateQuoteStatus
    rw [if_neg h]
    cases hl : wf.getD [] with
    | nil => simp
    | cons a t => simp [List.isEmpty]
  · intro stored wf
    by_cases h : stored = QuoteStatus.Sold
    · subst h
      rw [hsold, hsold]
    · exact updateQuoteStatus_stored_irrel _ _ wf
        (updateQuoteStatus_ne_sold stored wf h) h
  · intro stored l l' hp
    unfold updateQuoteStatus
    have hE : ∀ m : List Step, m.isEmpty = !(m.any fun _ => true) := by
      intro m
      cases m <;> rfl
    simp only [Option.getD_some, hE,
      list_any_perm hp (fun _ => true),
      list_any_perm hp (fun s => decide (s.status = ApprovalStatus.Rejected)),
      list_any_perm hp (fun s => decide (s.status = ApprovalStatus.Pending))]

/-- Witness for C4 at concrete inputs. -/
theorem updateQuoteStatus_spec_w :
    updateQuoteStatus QuoteStatus.Pending (some [exStepRejected]) = QuoteStatus.Rejected
    ∧ updateQuoteStatus QuoteStatus.Pending (some [exStepRejected, exStepWaiting]) =
        updateQuoteStatus QuoteStatus.Pending (some [exStepWaiting, exStepRejected]) :=
  ⟨(updateQuoteStatus_spec.2.1 QuoteStatus.Pending (some [exStepRejected])
      (by decide)).trans (by decide),
   updateQuoteStatus_spec.2.2.2 QuoteStatus.Pending [exStepRejected, exStepWaiting]
      [exStepWaiting, exStepRejected] (List.Perm.swap _ _ _)⟩

/-! ### Approval errors -/

/-- C5. The failure modes of `approveNextForRole`: a missing workflow and
the absence of a `Pending` step raise the two errors the spec classes as
`NotFoundError`; a persona mismatch on the pending step raises
`PersonaMismatchError`. In every failure case the outcome carries the input
workflow (every step status, `approvedAt` and gating timestamp included)
and the stored quote status unchanged. -/
theorem approveNextForRole_spec :
    (∀ now role stored, approveNextForRole now role none stored =
      ⟨some ApproveError.workflowNotFound, none, stored⟩)
    ∧ (∀ now role stored (steps : List Step),
        steps.find? (fun s => s.status = ApprovalStatus.Pending) = none →
        approveNextForRole now role (some steps) stored =
          ⟨some ApproveError.noPendingStep, some steps, stored⟩)
    ∧ (∀ now role stored (steps : List Step) st,
        steps.find? (fun s => s.status = ApprovalStatus.Pending) = some st →
        st.persona ≠ role →
        approveNextForRole now role (some steps) stored =
          ⟨some ApproveError.roleMismatch, some steps, stored⟩) := by
  refine ⟨fun _ _ _ => rfl, ?_, ?_⟩
  · intro now role stored steps h
    unfold approveNextForRole
    dsimp only
    rw [h]
  · intro now role stored steps st h hne
    unfold approveNextForRole
    dsimp only
    rw [h]
    dsimp only
    rw [if_pos hne]

/-- Witness for C5: Scenario D — approving as `CRO` while the pending step
is `DEALDESK` yields the mismatch error and leaves the state unchanged; a
missing workflow and a fully-resolved workflow yield the not-found errors. -/
theorem approveNextForRole_spec_w :
    approveNextForRole 9 Role.CRO (some [exStepApprovedAE, exStepPendingDD])
        QuoteStatus.Pending =
      ⟨some ApproveError.roleMismatch, some [exStepApprovedAE, exStepPendingDD],
        QuoteStatus.Pending⟩
    ∧ approveNextForRole 9 Role.CRO none QuoteStatus.Pending =
      ⟨some ApproveError.workflowNotFound, none, QuoteStatus.Pending⟩
    ∧ approveNextForRole 9 Role.CRO (some [exStepApprovedAE]) QuoteStatus.Approved =
      ⟨some ApproveError.noPendingStep, some [exStepApprovedAE], QuoteStatus.Approved⟩ :=
  ⟨approveNextForRole_spec.2.2 9 Role.CRO QuoteStatus.Pending
      [exStepApprovedAE, exStepPendingDD] exStepPendingDD (by decide) (by decide),
   approveNextForRole_spec.1 9 Role.CRO QuoteStatus.Pending,
   approveNextForRole_spec.2.1 9 Role.CRO QuoteStatus.Approved [exStepApprovedAE]
      (by decide)⟩

/-! ### Chain construction -/

/-- C1 counterexample: a bespoke deal (`paymentKind = BOTH`) with discount
10 hits the `DEALDESK` tier of the if/else-if ladder in `createQuote`'s
`buildApprovalChain`, so `FINANCE` is never appended: the chain is
`[AE, DEALDESK, LEGAL]`, not `[AE, DEALDESK, FINANCE, LEGAL]`. -/
theorem buildApprovalChain_bespoke_cex :
    isBespoke PaymentKind.BOTH (some 30)
    ∧ (0 : ℚ) ≤ 10 ∧ (10 : ℚ) ≤ 100
    ∧ buildApprovalChain 10 PaymentKind.BOTH (some 30) =
        [Role.AE, Role.DEALDESK, Role.LEGAL]
    ∧ ¬ Role.FINANCE ∈ buildApprovalChain 10 PaymentKind.BOTH (some 30) := by
  decide

/-- C1 (amended). In the new-quote chain builder (`createQuote`), `FINANCE`
is included exactly when the discount exceeds 40, or the deal is bespoke
and no discount tier fired (discount ≤ 0); a bespoke deal with a discount
in (0, 40] gets no `FINANCE` step. The seed-data variant instead ensures
`FINANCE` for every bespoke deal. -/
theorem buildApprovalChain_finance_iff (d : ℚ) (pk : PaymentKind) (nd : Option Int) :
    (Role.FINANCE ∈ buildApprovalChain d pk nd ↔
      40 < d ∨ (d ≤ 0 ∧ isBespoke pk nd))
    ∧ (Role.FINANCE ∈ buildApprovalChainSeed d pk nd ↔ 40 < d ∨ isBespoke pk nd) := by
  have hbb : ∀ pk nd, (pk = PaymentKind.BOTH ∨
      (pk = PaymentKind.NET ∧ 60 ≤ (Option.getD nd 0 : Int))) ↔ isBespoke pk nd :=
    fun _ _ => Iff.rfl
  constructor
  · unfold buildApprovalChain
    dsimp only
    by_cases h1 : 0 < d ∧ d ≤ 15
    · rw [if_pos h1]
      constructor
      · intro h
        simp at h
      · rintro (h | ⟨h, _⟩) <;> exfalso <;> linarith [h1.1, h1.2]
    · rw [if_neg h1]
      by_cases h2 : 15 < d ∧ d ≤ 40
      · rw [if_pos h2]
        constructor
        · intro h
          simp at h
        · rintro (h | ⟨h, _⟩) <;> exfalso <;> linarith [h2.1, h2.2]
      · rw [if_neg h2]
        by_cases h3 : 40 < d ∨ isBespoke pk nd
        · rw [if_pos ((or_congr Iff.rfl (hbb pk nd)).mpr h3)]
          constructor
          · intro _
            push_neg at h1 h2
            rcases h3 with h3 | h3
            · exact Or.inl h3
            · by_cases hd : d ≤ 0
              · exact Or.inr ⟨hd, h3⟩
              · push_neg at hd
                exact Or.inl (h2 (h1 hd))
          · intro _
            simp
        · rw [if_neg (fun hc => h3 ((or_congr Iff.rfl (hbb pk nd)).mp hc))]
          push_neg at h3
          constructor
          · intro h
            simp at h
          · rintro (h | ⟨_, hb⟩)
            · exact absurd h3.1 (not_le.mpr h)
            · exact absurd hb h3.2
  · unfold buildApprovalChainSeed
    dsimp only
    by_cases h1 : 0 < d ∧ d ≤ 15
    · rw [if_pos h1]
      by_cases hb : isBespoke pk nd
      · rw [if_pos ⟨hb, by simp⟩]
        constructor
        · intro _
          exact Or.inr hb
        · intro _
          simp
      · rw [if_neg (fun hc => hb hc.1)]
        constructor
        · intro h
          simp at h
        · rintro (h | h)
          · exfalso
            linarith [h1.2]
          · exact absurd h hb
    · rw [if_neg h1]
      by_cases h2 : 15 < d ∧ d ≤ 40
      · rw [if_pos h2]
        by_cases hb : isBespoke pk nd
        · rw [if_pos ⟨hb, by simp⟩]
          constructor
          · intro _
            exact Or.inr hb
          · intro _
            simp
        · rw [if_neg (fun hc => hb hc.1)]
          constructor
          · intro h
            simp at h
          · rintro (h | h)
            · exfalso
              linarith [h2.2]
            · exact absurd h hb
      · rw [if_neg h2]
        by_cases h3 : 40 < d
        · rw [if_pos h3, if_neg (by simp)]
          constructor
          · intro _
            exact Or.inl h3
          · intro _
            simp
        · rw [if_neg h3]
          by_cases hb : isBespoke pk nd
          · rw [if_pos ⟨hb, by simp⟩]
            constructor
            · intro _
              exact Or.inr hb
            · intro _
              simp
          · rw [if_neg (fun hc => hb hc.1)]
            constructor
            · intro h
              simp at h
            · rintro (h | h)
              · exact absurd h h3
              · exact absurd h hb

/-! ### Pricing -/

/-- C8. `createQuote`'s pricing: `subtotal = unitPrice * seats + Σ addOns`
and `total = subtotal * (1 - discount/100)`, both rounded to 2 decimal
places only at the end — the total is computed from the unrounded subtotal.
Scenario A (seats 50, unit price 20.00, one add-on 10.00, discount 10)
gives subtotal 1010.00 and total 909.00. The last two conjuncts show at a
concrete input (unit price 10.005, discount 50) that rounding the subtotal
first would give a different total (5.01 instead of 5.00), so the order of
rounding in the code is observable. -/
theorem createQuote_pricing_spec :
    (∀ (u : ℚ) (seats : Int) (addOnPrices : List ℚ) (d : ℚ),
      computePricing u seats addOnPrices d =
        (toCurrency (u * (seats : ℚ) + addOnPrices.sum),
         toCurrency ((u * (seats : ℚ) + addOnPrices.sum) * (1 - d / 100))))
    ∧ computePricing 20 50 [10] 10 = (1010, 909)
    ∧ computePricing (2001 / 200) 1 [] 50 = (1001 / 100, 5)
    ∧ toCurrency (toCurrency (2001 / 200) * (1 - 50 / 100)) = 501 / 100 := by
  refine ⟨fun u seats addOnPrices d => rfl, ?_, ?_, ?_⟩ <;>
    · simp only [computePricing, toCurrency, List.sum_cons, List.sum_nil, Prod.mk.injEq]
      norm_num

/-! ### Payment-term validation -/

/-- C10 counterexample: `createQuote` with `paymentKind = PREPAY` and no
`prepayPercent` passes validation (the `PREPAY` branch is empty) and the
persisted quote gets `prepayPercent` defaulted to 100 — it does not fail
with a `ValidationError`. -/
theorem createQuote_prepay_cex :
    createQuotePayment PaymentKind.PREPAY none none =
      Except.ok { paymentKind := PaymentKind.PREPAY, netDays := none,
                  prepayPercent := some 100 } := rfl

/-- C10 (amended). `prepayPercent` is required only when `paymentKind` is
`BOTH`: `PREPAY` never fails validation and defaults the stored
`prepayPercent` to 100; `NET` fails exactly when `netDays` is missing;
`BOTH` fails exactly when `netDays` or `prepayPercent` is missing. Every
persisted quote has `prepayPercent` set iff its kind is `PREPAY` or
`BOTH`. -/
theorem createQuotePayment_spec :
    (∀ nd pp, createQuotePayment PaymentKind.PREPAY nd pp =
        Except.ok { paymentKind := PaymentKind.PREPAY, netDays := none,
                    prepayPercent := some (pp.getD 100) })
    ∧ (∀ nd pp, (createQuotePayment PaymentKind.NET nd pp).isOk = true ↔ nd ≠ none)
    ∧ (∀ nd pp, (createQuotePayment PaymentKind.BOTH nd pp).isOk = true ↔
        (nd ≠ none ∧ pp ≠ none))
    ∧ (∀ pk nd pp r, createQuotePayment pk nd pp = Except.ok r →
        (r.prepayPercent.isSome = true ↔
          (pk = PaymentKind.PREPAY ∨ pk = PaymentKind.BOTH))) := by
  refine ⟨fun nd pp => rfl, ?_, ?_, ?_⟩
  · intro nd pp
    cases nd <;> simp [createQuotePayment, validatePaymentTerms, Except.isOk, Except.toBool]
  · intro nd pp
    cases nd <;> cases pp <;>
      simp [createQuotePayment, validatePaymentTerms, Except.isOk, Except.toBool]
  · intro pk nd pp r h
    cases pk
    · unfold createQuotePayment validatePaymentTerms at h
      by_cases hnd : nd = none
      · rw [if_pos hnd] at h
        exact absurd h (by simp)
      · rw [if_neg hnd] at h
        cases h
        simp
    · unfold createQuotePayment validatePaymentTerms at h
      cases h
      simp
    · unfold createQuotePayment validatePaymentTerms at h
      by_cases hc : nd = none ∨ pp = none
      · rw [if_pos hc] at h
        exact absurd h (by simp)
      · rw [if_neg hc] at h
        cases h
        simp

/-- Witness for C10 (amended) at concrete inputs. -/
theorem createQuotePayment_spec_w :
    createQuotePayment PaymentKind.PREPAY none (some 25) = Except.ok exPrepayRec
    ∧ ((createQuotePayment PaymentKind.NET (some 30) none).isOk = true)
    ∧ ((createQuotePayment PaymentKind.BOTH (some 30) none).isOk = true ↔
        ((some 30 : Option Int) ≠ none ∧ (none : Option ℚ) ≠ none))
    ∧ (exPrepayRec.prepayPercent.isSome = true ↔
        (PaymentKind.PREPAY = PaymentKind.PREPAY ∨
          PaymentKind.PREPAY = PaymentKind.BOTH)) :=
  ⟨createQuotePayment_spec.1 none (some 25),
   (createQuotePayment_spec.2.1 (some 30) none).mpr (by simp),
   createQuotePayment_spec.2.2.1 (some 30) none,
   createQuotePayment_spec.2.2.2 PaymentKind.PREPAY none (some 25) exPrepayRec rfl⟩

/-! ### Atomicity of quote creation -/

/-- C6 counterexample: an execution of `createQuote` that commits only the
first atomic unit (the standalone `ctx.db.quote.create`) has persisted the
quote but not its workflow: quote persistence and workflow initialization
are not one atomic unit. -/
theorem createQuote_atomicity_cex :
    quotePersisted (committedAfter [Role.AE, Role.LEGAL] 1)
    ∧ ¬ workflowInitialized (committedAfter [Role.AE, Role.LEGAL] 1)
    ∧ ¬ workflowInitialized (committedAfter [Role.AE, Role.LEGAL] 2) := by
  decide

/-- C6 (amended). `createQuote` persists the quote in a standalone write,
stores the contract document in a second standalone write (with the
best-effort generation between them), and initializes the workflow in a
separate transaction, its third atomic unit; a failure after the first unit
leaves a persisted quote with no workflow, while a committed workflow
implies the quote was persisted. -/
theorem createQuote_units_spec (chain : List Role) :
    quotePersisted (committedAfter chain 1)
    ∧ ¬ workflowInitialized (committedAfter chain 2)
    ∧ workflowInitialized (committedAfter chain 3)
    ∧ (∀ k, workflowInitialized (committedAfter chain k) →
        quotePersisted (committedAfter chain k)) := by
  refine ⟨?_, ?_, ?_, ?_⟩
  · simp [committedAfter, createQuoteUnits, quotePersisted]
  · simp [committedAfter, createQuoteUnits, workflowInitialized]
  · simp [committedAfter, createQuoteUnits, workflowInitialized]
  · intro k hk
    match k with
    | 0 => exact absurd hk (by simp [committedAfter, workflowInitialized])
    | n + 1 => simp [committedAfter, createQuoteUnits, quotePersisted]

/-- Witness for C6 (amended) at a concrete chain and prefix length. -/
theorem createQuote_units_spec_w :
    quotePersisted (committedAfter [Role.AE, Role.LEGAL] 3) :=
  (createQuote_units_spec [Role.AE, Role.LEGAL]).2.2.2 3
    (createQuote_units_spec [Role.AE, Role.LEGAL]).2.2.1

/-! ### Full-replace workflow editing -/

/-- C2 counterexample: the demoting edit violates the spec's approved-prefix
constraint, yet `setWorkflow` does not fail: it persists the replacement
list (re-gated, so the previously approved `AE` step comes back as
`Pending`) and recomputes the quote status. No `InvalidEditError` exists in
the engine. -/
theorem setWorkflow_invalid_edit_cex :
    specEditViolation exApprovedOnly exDemoteInput = true
    ∧ setWorkflow 7 [] (some exApprovedOnly) QuoteStatus.Pending exDemoteInput =
        (some [{ stepOrder := 1, persona := Role.AE, status := ApprovalStatus.Pending,
                 approverId := none, approvedAt := none, updatedAt := some 7 }],
         QuoteStatus.Pending) := by
  decide

/-- C2 (amended). `setWorkflow` enforces no constraint against the old step
list: its result does not depend on the existing workflow at all, it always
succeeds, and it persists exactly the re-gated new list — in particular an
edit violating the spec's approved-prefix constraint is applied rather than
rejected. -/
theorem setWorkflow_replaces_unconditionally (now : Int)
    (users : List (String × String)) (oldWf oldWf' : Option (List Step))
    (stored : QuoteStatus) (inputs : List StepInput) :
    setWorkflow now users oldWf stored inputs = setWorkflow now users oldWf' stored inputs
    ∧ (setWorkflow now users oldWf stored inputs).1 =
        some (gateList now (inputs.mapIdx (buildStep now users)))
    ∧ (∀ old, oldWf = some old → specEditViolation old inputs = true →
        (setWorkflow now users oldWf stored inputs).1 =
          some (gateList now (inputs.mapIdx (buildStep now users)))) :=
  ⟨rfl, rfl, fun _ _ _ => rfl⟩

/-- Witness for C2 (amended) at the concrete violating edit. -/
theorem setWorkflow_replaces_unconditionally_w :
    (setWorkflow 7 [] (some exApprovedOnly) QuoteStatus.Pending exDemoteInput).1 =
      some (gateList 7 (exDemoteInput.mapIdx (buildStep 7 []))) :=
  (setWorkflow_replaces_unconditionally 7 [] (some exApprovedOnly) none
      QuoteStatus.Pending exDemoteInput).2.2 exApprovedOnly rfl (by decide)

/-! ### The one-pending gating invariant -/

theorem any_rejected_eq_false_iff (l : List Step) :
    ((l.any fun s => s.status = ApprovalStatus.Rejected) = false) ↔
      ∀ s ∈ l, s.status ≠ ApprovalStatus.Rejected := by
  rw [← Bool.not_eq_true, List.any_eq_true]
  simp

theorem markWaiting_not_pending (s : Step) :
    ¬ (markWaiting s).status = ApprovalStatus.Pending := by
  rcases markWaiting_status s with h | h <;> rw [h] <;> nofun

theorem countP_pending_map_markWaiting (l : List Step) :
    ((l.map markWaiting).countP fun s => s.status = ApprovalStatus.Pending) = 0 := by
  rw [List.countP_eq_zero]
  intro a ha
  obtain ⟨x, _, rfl⟩ := List.mem_map.mp ha
  simpa using markWaiting_not_pending x

theorem gateSteps_pending_le_one (now : Int) (l : List Step) :
    ((gateSteps now l).countP fun s => s.status = ApprovalStatus.Pending) ≤ 1 := by
  induction l with
  | nil => simp [gateSteps]
  | cons s rest ih =>
    by_cases h : s.status = ApprovalStatus.Approved
    · rw [gateSteps, if_pos h,
        List.countP_cons_of_neg _ _ (by simp [h])]
      exact ih
    · rw [gateSteps, if_neg h,
        List.countP_cons_of_pos _ _ (by simp [markPending_status]),
        countP_pending_map_markWaiting]

theorem gateSteps_wfInvariant (now : Int) (l : List Step) :
    wfInvariant (gateSteps now l) := by
  refine ⟨gateSteps_pending_le_one now l, fun h => ?_⟩
  rw [gateSteps_any_rejected_eq_false] at h
  cases h

theorem gateList_wfInvariant (now : Int) (l : List Step)
    (h : (l.any fun s => s.status = ApprovalStatus.Rejected) = false) :
    wfInvariant (gateList now l) := by
  unfold gateList
  rw [if_neg (by rw [h]; nofun)]
  exact gateSteps_wfInvariant now l

theorem approveFirstPending_not_rejected (now : Int) (l : List Step)
    (h : ∀ s ∈ l, s.status ≠ ApprovalStatus.Rejected) :
    ∀ s ∈ approveFirstPending now l, s.status ≠ ApprovalStatus.Rejected := by
  induction l with
  | nil => nofun
  | cons a rest ih =>
    intro t ht
    by_cases ha : a.status = ApprovalStatus.Pending
    · rw [approveFirstPending, if_pos ha] at ht
      rcases List.mem_cons.mp ht with rfl | ht
      · nofun
      · exact h t (List.mem_cons_of_mem a ht)
    · rw [approveFirstPending, if_neg ha] at ht
      rcases List.mem_cons.mp ht with rfl | ht
      · exact h t (List.mem_cons_self t rest)
      · exact ih (fun s hs => h s (List.mem_cons_of_mem a hs)) t ht

/-- C3 counterexample: `setWorkflow` accepts a step list containing both a
`Rejected` and a `Pending` step; the re-gating pass is a no-op on frozen
workflows, so the persisted state — reached through an engine mutation
operation — has a `Pending` step alongside a `Rejected` one, violating the
claimed invariant. -/
theorem workflow_invariant_cex :
    (setWorkflow 0 [] none QuoteStatus.Pending exRejPendingInputs).1 =
      some exRejPendingSteps
    ∧ ¬ wfInvariant exRejPendingSteps := by
  decide

/-- C3 (amended). The invariant — at most one `Pending`, none when some
step is `Rejected` — holds after workflow initialization in `createQuote`,
is preserved by `approveNextForRole` (on failure the state is unchanged, on
success the gating pass re-establishes it), and holds after `setWorkflow`
whenever the incoming step list contains no `Rejected` entry. (When the
incoming list does contain a `Rejected` entry the gating pass is a no-op
and the list is persisted as provided.) -/
theorem workflow_invariant_spec :
    (∀ now creatorId chain, wfInvariant (initWorkflow now creatorId chain))
    ∧ (∀ now role (steps : List Step) stored, wfInvariant steps →
        ∀ l', (approveNextForRole now role (some steps) stored).wf = some l' →
          wfInvariant l')
    ∧ (∀ now users oldWf stored (inputs : List StepInput),
        (inputs.all fun i => ¬ i.status = some ApprovalStatus.Rejected) = true →
        ∀ l', (setWorkflow now users oldWf stored inputs).1 = some l' →
          wfInvariant l') := by
  refine ⟨?_, ?_, ?_⟩
  · intro now creatorId chain
    unfold initWorkflow
    apply gateList_wfInvariant
    rw [any_rejected_eq_false_iff]
    intro s hs
    rcases List.mem_cons.mp hs with rfl | hs
    · nofun
    · rw [List.mapIdx_eq_enum_map] at hs
      obtain ⟨q, _, rfl⟩ := List.mem_map.mp hs
      nofun
  · intro now role steps stored hinv l' hl'
    unfold approveNextForRole at hl'
    dsimp only at hl'
    cases hf : steps.find? (fun s => s.status = ApprovalStatus.Pending) with
    | none =>
      rw [hf] at hl'
      cases hl'
      exact hinv
    | some st =>
      rw [hf] at hl'
      dsimp only at hl'
      by_cases hrole : st.persona ≠ role
      · rw [if_pos hrole] at hl'
        cases hl'
        exact hinv
      · rw [if_neg hrole] at hl'
        cases hl'
        have hmem := List.mem_of_find?_eq_some hf
        have hfind := List.find?_some hf
        have hps : st.status = ApprovalStatus.Pending := of_decide_eq_true hfind
        have hpend : 0 < steps.countP fun s => s.status = ApprovalStatus.Pending :=
          List.countP_pos_iff.mpr ⟨st, hmem, by simp [hps]⟩
        have hnorej : (steps.any fun s => s.status = ApprovalStatus.Rejected) = false := by
          cases hb : steps.any fun s => s.status = ApprovalStatus.Rejected
          · rfl
          · exact absurd (hinv.2 hb) (by omega)
        apply gateList_wfInvariant
        rw [any_rejected_eq_false_iff]
        exact approveFirstPending_not_rejected now steps
          ((any_rejected_eq_false_iff steps).mp hnorej)
  · intro now users oldWf stored inputs hno l' hl'
    unfold setWorkflow at hl'
    dsimp only at hl'
    cases hl'
    apply gateList_wfInvariant
    rw [any_rejected_eq_false_iff]
    intro s hs
    rw [List.mapIdx_eq_enum_map] at hs
    obtain ⟨q, hq, rfl⟩ := List.mem_map.mp hs
    have hq2 : q.2 ∈ inputs :=
      List.getElem?_mem (List.mem_enum_iff_getElem?.mp hq)
    have hq3 := List.all_eq_true.mp hno q.2 hq2
    show ¬ ((q.2.status).getD ApprovalStatus.Waiting = ApprovalStatus.Rejected)
    cases hst : q.2.status with
    | none => simp
    | some x =>
      rw [hst] at hq3
      simpa using fun hx => (of_decide_eq_true hq3) (by rw [hx])

/-- Witness for C3 (amended) at concrete inputs: the invariant holds for
the workflow initialized from the bespoke-free chain of Scenario B, is
preserved by the Scenario C approval, and holds after a `setWorkflow`
replacement without rejected entries. -/
theorem workflow_invariant_spec_w :
    wfInvariant (initWorkflow 5 "u1" [Role.AE, Role.DEALDESK, Role.LEGAL])
    ∧ wfInvariant (gateList 9
        (approveFirstPending 9 [exStepApprovedAE, exStepPendingDD]))
    ∧ wfInvariant (gateList 0 (exDemoteInput.mapIdx (buildStep 0 []))) :=
  ⟨workflow_invariant_spec.1 5 "u1" [Role.AE, Role.DEALDESK, Role.LEGAL],
   workflow_invariant_spec.2.1 9 Role.DEALDESK [exStepApprovedAE, exStepPendingDD]
      QuoteStatus.Pending (by decide) _ (by decide),
   workflow_invariant_spec.2.2 0 [] none QuoteStatus.Pending exDemoteInput
      (by decide) _ rfl⟩

/-! ### Similarity ranking -/

/-- C7. `findSimilarQuotes` returns at most 10 results; its candidate set is
capped at 200 quotes drawn from the store with status `Approved` or `Sold`
and created within the trailing 365 days, ordered most-recent-first; every
result has a strictly positive score and is the scored projection of some
candidate; and the result list is sorted by score descending with ties
broken by `createdAt` descending. -/
theorem findSimilarQuotes_spec (nowMs : Int) (allQuotes : List Quote) (p : SimilarQuery) :
    (findSimilarQuotes nowMs allQuotes p).length ≤ 10
    ∧ (simCandidates nowMs allQuotes).length ≤ 200
    ∧ (∀ q ∈ simCandidates nowMs allQuotes, q ∈ allQuotes
        ∧ (q.status = QuoteStatus.Approved ∨ q.status = QuoteStatus.Sold)
        ∧ nowMs - 365 * 24 * 60 * 60 * 1000 ≤ q.createdAt)
    ∧ (simCandidates nowMs allQuotes).Sorted recencyRel
    ∧ (∀ r ∈ findSimilarQuotes nowMs allQuotes p, 0 < r.score)
    ∧ (∀ r ∈ findSimilarQuotes nowMs allQuotes p,
        ∃ q ∈ simCandidates nowMs allQuotes, r = toResult (scoreQuote nowMs p q))
    ∧ (findSimilarQuotes nowMs allQuotes p).Pairwise
        (fun a b => b.score < a.score ∨ (a.score = b.score ∧ b.createdAt ≤ a.createdAt)) := by
  refine ⟨?_, ?_, ?_, ?_, ?_, ?_, ?_⟩
  · unfold findSimilarQuotes
    rw [List.length_map]
    exact List.length_take_le 10 _
  · unfold simCandidates
    exact List.length_take_le 200 _
  · intro q hq
    unfold simCandidates at hq
    have hq1 := List.mem_of_mem_take hq
    have hq2 := (List.perm_insertionSort recencyRel _).subset hq1
    have hq3 := List.mem_filter.mp hq2
    refine ⟨hq3.1, ?_, ?_⟩
    · have := hq3.2
      simp only [candidateFilter, Bool.and_eq_true, Bool.or_eq_true,
        decide_eq_true_eq] at this
      exact this.2
    · have := hq3.2
      simp only [candidateFilter, Bool.and_eq_true, Bool.or_eq_true,
        decide_eq_true_eq] at this
      exact this.1
  · unfold simCandidates
    exact List.Pairwise.sublist (List.take_sublist 200 _)
      (List.sorted_insertionSort recencyRel _)
  · intro r hr
    unfold findSimilarQuotes at hr
    dsimp only at hr
    obtain ⟨sq, hsq, rfl⟩ := List.mem_map.mp hr
    have h1 := List.mem_of_mem_take hsq
    have h2 := (List.perm_insertionSort rankRel _).subset h1
    have h3 := List.mem_filter.mp h2
    exact of_decide_eq_true h3.2
  · intro r hr
    unfold findSimilarQuotes at hr
    dsimp only at hr
    obtain ⟨sq, hsq, rfl⟩ := List.mem_map.mp hr
    have h1 := List.mem_of_mem_take hsq
    have h2 := (List.perm_insertionSort rankRel _).subset h1
    have h3 := List.mem_filter.mp h2
    obtain ⟨q, hq, rfl⟩ := List.mem_map.mp h3.1
    exact ⟨q, hq, rfl⟩
  · unfold findSimilarQuotes
    dsimp only
    rw [List.pairwise_map]
    refine List.Pairwise.imp ?_
      (List.Pairwise.sublist (List.take_sublist 10 _)
        (List.sorted_insertionSort rankRel _))
    intro a b hab
    exact hab

theorem simCandidates_ex_eval : simCandidates exNow [exCand] = [exCand] := by
  decide

theorem scoreQuote_ex_eval : scoreQuote exNow exQuery exCand = exScored := by
  unfold scoreQuote exQuery
  dsimp only
  rw [if_pos (by decide : exCand.packageId = "p1")]
  rw [if_neg (by decide : ¬ (([] : List String) ≠ [] ∨
    (([] : List String).map fun n => (n.trim).toLower) ≠ []))]
  rw [if_pos (by unfold exNow exCand; norm_num :
    ((exNow - exCand.createdAt : ℚ)) / (1000 * 60 * 60 * 24) ≤ 90)]
  decide

theorem findSimilarQuotes_ex_eval :
    findSimilarQuotes exNow [exCand] exQuery = [toResult exScored] := by
  unfold findSimilarQuotes
  rw [simCandidates_ex_eval]
  dsimp only
  rw [List.map_cons, List.map_nil, scoreQuote_ex_eval]
  decide

/-- Witness for C7 at the concrete store and query. -/
theorem findSimilarQuotes_spec_w :
    0 < (toResult exScored).score
    ∧ (∃ q ∈ simCandidates exNow [exCand],
        toResult exScored = toResult (scoreQuote exNow exQuery q))
    ∧ (exCand ∈ [exCand]
        ∧ (exCand.status = QuoteStatus.Approved ∨ exCand.status = QuoteStatus.Sold)
        ∧ exNow - 365 * 24 * 60 * 60 * 1000 ≤ exCand.createdAt) :=
  ⟨(findSimilarQuotes_spec exNow [exCand] exQuery).2.2.2.2.1 (toResult exScored)
      (by rw [findSimilarQuotes_ex_eval]; exact List.mem_cons_self _ _),
   (findSimilarQuotes_spec exNow [exCand] exQuery).2.2.2.2.2.1 (toResult exScored)
      (by rw [findSimilarQuotes_ex_eval]; exact List.mem_cons_self _ _),
   (findSimilarQuotes_spec exNow [exCand] exQuery).2.2.1 exCand
      (by rw [simCandidates_ex_eval]; exact List.mem_cons_self _ _)⟩

end Canyon
